import Mathlib

/-!
Verification of the lemonade-manager admin panel (src/lemonade_manager.py).

The Python source is shallowly embedded below:
* `pyStrip` models Python's `str.strip()` (ASCII whitespace).
* The recipe-options document (`recipe_options.json`) is modelled as a
  partial map from model names to `RecipeEntry` records; `set_model_options`,
  `get_model_options` and `load_recipe_options` mirror the functions of the
  same names in the source.
* The disabled-model preference document is modelled as the persisted list
  of model names; `set_disabled` and `get_disabled_models` mirror the source.
* HTTP calls are modelled by explicit outcome datatypes; the payload built by
  `do_load`, the headers built by `get_headers`, the stats fetch `get_stats`,
  and the pull-relay generator `event_generator` follow the source line by
  line.  Exceptions of the Python code are represented by `Option`/`Except`
  values or by explicit failure constructors; a function that catches every
  exception is embedded as a total function.
-/

/-- The characters Python's `str.strip()` removes (ASCII whitespace). -/
def isSpaceChar (c : Char) : Bool :=
  c = ' ' || c = '\t' || c = '\n' || c = '\r' || c = '\x0b' || c = '\x0c'

/-- Strip `isSpaceChar` characters from both ends of a character list. -/
def stripChars (l : List Char) : List Char :=
  ((l.dropWhile isSpaceChar).reverse.dropWhile isSpaceChar).reverse

/-- Embedding of Python's `s.strip()`. -/
def pyStrip (s : String) : String :=
  String.mk (stripChars s.data)

lemma dropWhile_cons_false {a : Char} {t : List Char} (h : isSpaceChar a = false) :
    List.dropWhile isSpaceChar (a :: t) = a :: t := by
  simp [List.dropWhile, h]

lemma dropWhile_head_false :
    ∀ {l : List Char} {a : Char} {t : List Char},
      List.dropWhile isSpaceChar l = a :: t → isSpaceChar a = false := by
  intro l
  induction l with
  | nil => intro a t h; simp [List.dropWhile] at h
  | cons x xs ih =>
      intro a t h
      by_cases hx : isSpaceChar x = true
      · simp [List.dropWhile, hx] at h
        exact ih h
      · have hx' : isSpaceChar x = false := by
          cases hxx : isSpaceChar x
          · rfl
          · exact absurd hxx hx
        rw [dropWhile_cons_false hx'] at h
        cases h
        exact hx'

lemma dropWhile_image_fix (l : List Char) :
    List.dropWhile isSpaceChar (List.dropWhile isSpaceChar l) =
      List.dropWhile isSpaceChar l := by
  cases h : List.dropWhile isSpaceChar l with
  | nil => simp
  | cons a t => exact dropWhile_cons_false (dropWhile_head_false h)

lemma stripChars_head_false {l : List Char} {a : Char} {t : List Char}
    (h : stripChars l = a :: t) : isSpaceChar a = false := by
  have hy : List.dropWhile isSpaceChar l =
      (a :: t) ++ ((List.dropWhile isSpaceChar l).reverse.takeWhile isSpaceChar).reverse := by
    conv_lhs => rw [← List.reverse_reverse (List.dropWhile isSpaceChar l),
      ← List.takeWhile_append_dropWhile
        (p := isSpaceChar) (l := (List.dropWhile isSpaceChar l).reverse)]
    rw [List.reverse_append]
    unfold stripChars at h
    rw [h]
  exact dropWhile_head_false hy

lemma stripChars_fix (l : List Char) : stripChars (stripChars l) = stripChars l := by
  cases h : stripChars l with
  | nil => rfl
  | cons a t =>
      have ha := stripChars_head_false h
      have hrev : (a :: t).reverse =
          List.dropWhile isSpaceChar (List.dropWhile isSpaceChar l).reverse := by
        rw [← h]
        unfold stripChars
        rw [List.reverse_reverse]
      unfold stripChars
      rw [dropWhile_cons_false ha, hrev, dropWhile_image_fix, ← hrev,
        List.reverse_reverse]

lemma pyStrip_idem (s : String) : pyStrip (pyStrip s) = pyStrip s := by
  show String.mk (stripChars (stripChars s.data)) = String.mk (stripChars s.data)
  rw [stripChars_fix]

lemma pyStrip_empty : pyStrip "" = "" := rfl

/-- One entry of the recipe-options JSON document.  The three fields known to
the manager are explicit; `extra` records the names of any other keys an
externally written file may contain (the manager never touches them, but they
count for the emptiness test `if entry:`). -/
structure RecipeEntry where
  ctx_size : Option Int
  llamacpp_args : Option String
  llamacpp_backend : Option String
  extra : List String
deriving DecidableEq

/-- The empty JSON object `\x7b\x7d` used as the default entry. -/
def emptyEntry : RecipeEntry := ⟨none, none, none, []⟩

/-- The recipe-options document: a partial map from model name to entry
(`none` = key absent from the JSON object). -/
def RecipeDoc : Type := String → Option RecipeEntry

/-- Python `if entry:` — truthiness of the entry dict (any key present). -/
def entryTruthy (e : RecipeEntry) : Bool :=
  e.ctx_size.isSome || e.llamacpp_args.isSome || e.llamacpp_backend.isSome ||
    !e.extra.isEmpty

lemma entry_not_truthy_eq {e : RecipeEntry} (h : entryTruthy e = false) :
    e = emptyEntry := by
  obtain ⟨c, a, b, x⟩ := e
  simp [entryTruthy] at h
  obtain ⟨hc, ha, hb, hx⟩ := h
  cases c <;> cases a <;> cases b <;> simp_all [emptyEntry]

/-- Embedding of `get_model_options` (source lines 86-89):
`all_opts.get(model_name, \x7b\x7d)`. -/
def get_model_options (doc : RecipeDoc) (model_name : String) : RecipeEntry :=
  (doc model_name).getD emptyEntry

/-- Embedding of `set_model_options` (source lines 91-126), acting on the
parsed document.  Each step mirrors the source: upsert a provided `ctx_size`;
for each provided string field, store the stripped value if non-empty and
otherwise delete the key; finally keep the model key only when the resulting
entry dict is truthy. -/
def set_model_options (doc : RecipeDoc) (model_name : String)
    (ctx_size : Option Int) (llamacpp_args : Option String)
    (llamacpp_backend : Option String) : RecipeDoc :=
  let entry := (doc model_name).getD emptyEntry
  let entry :=
    match ctx_size with
    | some c => { entry with ctx_size := some c }
    | none => entry
  let entry :=
    match llamacpp_args with
    | some a =>
        let clean_args := pyStrip a
        if clean_args ≠ "" then { entry with llamacpp_args := some clean_args }
        else { entry with llamacpp_args := none }
    | none => entry
  let entry :=
    match llamacpp_backend with
    | some b =>
        let clean_backend := pyStrip b
        if clean_backend ≠ "" then { entry with llamacpp_backend := some clean_backend }
        else { entry with llamacpp_backend := none }
    | none => entry
  fun n =>
    if n = model_name then
      if entryTruthy entry then some entry else none
    else doc n

/-- Spec-side description of one string field of a `setOptions` update:
provided non-empty upserts (trimmed), provided empty deletes, absent is left
untouched.  Follows the spec's words for comparison with the source. -/
def specFieldString (old inp : Option String) : Option String :=
  match inp with
  | none => old
  | some s => if pyStrip s = "" then none else some (pyStrip s)

/-- Spec-side description of the `ctx_size` field of a `setOptions` update:
provided upserts, absent is left untouched (an integer field has no empty
form in the code's domain). -/
def specFieldCtx (old inp : Option Int) : Option Int :=
  match inp with
  | none => old
  | some c => some c

/-- Spec-side description of the whole entry after a `setOptions` update. -/
def specUpdatedEntry (old : RecipeEntry) (c : Option Int) (a b : Option String) :
    RecipeEntry :=
  { ctx_size := specFieldCtx old.ctx_size c
    llamacpp_args := specFieldString old.llamacpp_args a
    llamacpp_backend := specFieldString old.llamacpp_backend b
    extra := old.extra }

lemma set_entry_eq (doc : RecipeDoc) (m : String) (c : Option Int)
    (a b : Option String) :
    set_model_options doc m c a b m =
      (if entryTruthy (specUpdatedEntry (get_model_options doc m) c a b) then
        some (specUpdatedEntry (get_model_options doc m) c a b) else none) := by
  unfold set_model_options specUpdatedEntry specFieldString specFieldCtx
    get_model_options
  cases c <;> cases a <;> cases b <;>
    simp only [if_pos rfl] <;>
    split_ifs <;> simp_all

lemma set_get_eq (doc : RecipeDoc) (m : String) (c : Option Int)
    (a b : Option String) :
    get_model_options (set_model_options doc m c a b) m =
      specUpdatedEntry (get_model_options doc m) c a b := by
  unfold get_model_options
  rw [set_entry_eq]
  split_ifs with h
  · rfl
  · rw [Option.getD_none]
    exact (entry_not_truthy_eq (Bool.eq_false_iff.mpr h)).symm

lemma set_other_key (doc : RecipeDoc) (m : String) (c : Option Int)
    (a b : Option String) (n : String) (hn : n ≠ m) :
    set_model_options doc m c a b n = doc n := by
  unfold set_model_options
  simp [hn]

/-- C2: `setOptions` followed by `getOptions` realises exactly the per-field
semantics: a provided non-empty string field is upserted (trimmed), a string
field provided as an empty (or whitespace-only) string is deleted, `ctx_size`
is upserted whenever provided, absent fields are left untouched, and the
model's key survives in the document exactly when the resulting entry still
has at least one field. -/
theorem C2_set_then_get_options (doc : RecipeDoc) (m : String) (c : Option Int)
    (a b : Option String) :
    get_model_options (set_model_options doc m c a b) m =
      specUpdatedEntry (get_model_options doc m) c a b ∧
    (set_model_options doc m c a b m).isNone =
      !entryTruthy (specUpdatedEntry (get_model_options doc m) c a b) := by
  refine ⟨set_get_eq doc m c a b, ?_⟩
  rw [set_entry_eq]
  split_ifs with h <;> simp [h]

/-- C9: in the payload built by `do_load`, a `ctx_size` of `0` behaves exactly
like an absent `ctx_size` — the truthiness test `if ctx_size:` drops both. -/
structure LoadPayload where
  model_name : String
  ctx_size : Option Int
  llamacpp_args : Option String
  llamacpp_backend : Option String
deriving DecidableEq

/-- Embedding of `do_load` (source lines 189-207): the JSON body sent to
`POST /api/v1/load`.  Optional fields are included only when truthy; string
fields are stripped. -/
def do_load (model_name : String) (ctx_size : Option Int)
    (llamacpp_args llamacpp_backend : Option String) : LoadPayload :=
  { model_name := model_name
    ctx_size :=
      match ctx_size with
      | some c => if c ≠ 0 then some c else none
      | none => none
    llamacpp_args :=
      match llamacpp_args with
      | some a => if a ≠ "" ∧ pyStrip a ≠ "" then some (pyStrip a) else none
      | none => none
    llamacpp_backend :=
      match llamacpp_backend with
      | some b => if b ≠ "" ∧ pyStrip b ≠ "" then some (pyStrip b) else none
      | none => none }

/-- C9: `do_load` cannot distinguish `ctx_size = 0` from an absent `ctx_size`;
the field is omitted from the upstream payload in both cases. -/
theorem C9_ctx_zero_like_absent (model_name : String)
    (llamacpp_args llamacpp_backend : Option String) :
    do_load model_name (some 0) llamacpp_args llamacpp_backend =
      do_load model_name none llamacpp_args llamacpp_backend := by
  simp [do_load]

/-- A starting document that already contains a model key whose entry is the
empty JSON object (such a file can be written by hand or by the native
server; `load_recipe_options` parses it unchanged). -/
def docWithEmptyLegacyKey : RecipeDoc :=
  fun n => if n = "legacy-model" then some emptyEntry else none

/-- C7 counterexample: `set_model_options` only rewrites the entry of the
model it updates, so a pre-existing key with a zero-field entry survives the
call — the resulting mapping contains a key whose entry has no fields,
contradicting the claim's quantification over every starting document. -/
theorem C7_counterexample_empty_key_survives :
    set_model_options docWithEmptyLegacyKey "llama" (some 4096) none none
      "legacy-model" = some emptyEntry ∧
    entryTruthy emptyEntry = false := by
  constructor
  · rfl
  · rfl

/-- C7 (amended): the key of the model being updated is present in the
resulting document only if its entry has at least one field; all other keys
are copied unchanged; hence the minimality invariant holds for every key
whenever the starting document already satisfies it. -/
theorem C7_minimality_invariant (doc : RecipeDoc) (m : String) (c : Option Int)
    (a b : Option String) :
    (∀ e, set_model_options doc m c a b m = some e → entryTruthy e = true) ∧
    (∀ n, n ≠ m → set_model_options doc m c a b n = doc n) ∧
    ((∀ n e, doc n = some e → entryTruthy e = true) →
      ∀ n e, set_model_options doc m c a b n = some e → entryTruthy e = true) := by
  have h1 : ∀ e, set_model_options doc m c a b m = some e → entryTruthy e = true := by
    intro e he
    rw [set_entry_eq] at he
    by_cases h : entryTruthy (specUpdatedEntry (get_model_options doc m) c a b) = true
    · rw [if_pos h] at he
      cases he
      exact h
    · rw [if_neg h] at he
      cases he
  refine ⟨h1, fun n hn => set_other_key doc m c a b n hn, ?_⟩
  intro hd n e he
  by_cases hn : n = m
  · subst hn
    exact h1 e he
  · rw [set_other_key doc m c a b n hn] at he
    exact hd n e he

/-- Witness for the amended C7 at a concrete input. -/
theorem C7_minimality_invariant_witness :
    ∀ e, set_model_options (fun _ => none) "llama" (some 4096) (some "-np 4")
      none "llama" = some e → entryTruthy e = true :=
  (C7_minimality_invariant (fun _ => none) "llama" (some 4096) (some "-np 4")
    none).1

/-- A stored string value is well formed when it is non-empty and carries no
leading or trailing whitespace (it is a fixed point of `pyStrip`). -/
def wfOptStr : Option String → Bool
  | none => true
  | some s => (pyStrip s == s) && (s != "")

/-- Well-formedness of the string fields of a stored entry. -/
def wfEntryStrings (e : RecipeEntry) : Bool :=
  wfOptStr e.llamacpp_args && wfOptStr e.llamacpp_backend

/-- A stored `ctx_size` is well formed when it is non-zero (the load path
tests it for truthiness). -/
def wfCtx : Option Int → Bool
  | none => true
  | some c => c != 0

/-- Full well-formedness of a stored entry. -/
def wfEntry (e : RecipeEntry) : Bool :=
  wfCtx e.ctx_size && wfEntryStrings e

lemma wf_specFieldString_provided (old : Option String) (s : String) :
    wfOptStr (specFieldString old (some s)) = true := by
  simp only [specFieldString]
  split_ifs with h
  · rfl
  · simp [wfOptStr, pyStrip_idem, h]

lemma wf_specFieldString (old : Option String) (inp : Option String)
    (h : wfOptStr old = true) : wfOptStr (specFieldString old inp) = true := by
  cases inp with
  | none => exact h
  | some s => exact wf_specFieldString_provided old s

/-- C10: `set_model_options` keeps the string fields of the entry it touches
well formed — a newly provided string field is stored stripped and non-empty
(or deleted), and if the old entry's string fields were well formed then so
are the new entry's. -/
theorem C10_stored_strings_wellformed (doc : RecipeDoc) (m : String)
    (c : Option Int) (a b : Option String) :
    (wfEntryStrings (get_model_options doc m) = true →
      wfEntryStrings (get_model_options (set_model_options doc m c a b) m) = true) ∧
    (∀ s, a = some s →
      wfOptStr (get_model_options (set_model_options doc m c a b) m).llamacpp_args
        = true) ∧
    (∀ s, b = some s →
      wfOptStr (get_model_options (set_model_options doc m c a b) m).llamacpp_backend
        = true) := by
  rw [set_get_eq]
  refine ⟨?_, ?_, ?_⟩
  · intro h
    unfold wfEntryStrings at h ⊢
    rw [Bool.and_eq_true] at h
    unfold specUpdatedEntry
    simp only [Bool.and_eq_true]
    exact ⟨wf_specFieldString _ a h.1, wf_specFieldString _ b h.2⟩
  · intro s hs
    subst hs
    simp only [specUpdatedEntry]
    exact wf_specFieldString_provided _ s
  · intro s hs
    subst hs
    simp only [specUpdatedEntry]
    exact wf_specFieldString_provided _ s

/-- Witness for C10 at a concrete input: storing a padded argument string
leaves a trimmed, non-empty stored value. -/
theorem C10_stored_strings_wellformed_witness :
    wfOptStr (get_model_options
      (set_model_options (fun _ => none) "llama" none (some "  -np 4  ")
        (some "vulkan")) "llama").llamacpp_args = true :=
  (C10_stored_strings_wellformed (fun _ => none) "llama" none (some "  -np 4  ")
    (some "vulkan")).2.1 "  -np 4  " rfl

lemma ne_empty_of_pyStrip_ne {b : String} (h : pyStrip b ≠ "") : b ≠ "" := by
  intro hb
  rw [hb] at h
  exact h pyStrip_empty

/-- Embedding of the `/defaults/load` handler `load_model_defaults`
(source lines 759-777): `ctx_size` and `llamacpp_args` are read from the
stored options; the user-typed backend wins over the stored one when truthy
and non-blank; the resolved triple is handed to `do_load`. -/
def load_model_defaults (doc : RecipeDoc) (model_name : String)
    (llamacpp_backend : Option String) : LoadPayload :=
  let options := get_model_options doc model_name
  let ctx_size := options.ctx_size
  let llamacpp_args := options.llamacpp_args
  let final_backend :=
    match llamacpp_backend with
    | some b =>
        if b ≠ "" ∧ pyStrip b ≠ "" then some b else options.llamacpp_backend
    | none => options.llamacpp_backend
  do_load model_name ctx_size llamacpp_args final_backend

/-- Spec-side merge rule for the backend: the user-supplied string (trimmed)
if non-empty after trimming, otherwise the stored backend, otherwise absent.
Follows the spec's words for comparison with the source. -/
def specMergedBackend (user stored : Option String) : Option String :=
  match user with
  | some b => if pyStrip b ≠ "" then some (pyStrip b) else stored
  | none => stored

/-- C1: for every document, model id and user-supplied backend, the payload
sent upstream by the `/defaults/load` handler takes `ctx_size` and
`llamacpp_args` from the stored options (never from the request) and its
backend follows the precedence rule `specMergedBackend` — provided the stored
entry is well formed (non-zero ctx, trimmed non-empty strings), which is what
`set_model_options` persists. -/
theorem C1_load_defaults_merge (doc : RecipeDoc) (m : String)
    (ub : Option String) (h : wfEntry (get_model_options doc m) = true) :
    load_model_defaults doc m ub =
      { model_name := m
        ctx_size := (get_model_options doc m).ctx_size
        llamacpp_args := (get_model_options doc m).llamacpp_args
        llamacpp_backend :=
          specMergedBackend ub (get_model_options doc m).llamacpp_backend } := by
  unfold wfEntry wfEntryStrings at h
  rw [Bool.and_eq_true, Bool.and_eq_true] at h
  obtain ⟨hc, ha, hb⟩ := h
  have hstr : ∀ {o : Option String}, wfOptStr o = true →
      (match o with
        | some s => if s ≠ "" ∧ pyStrip s ≠ "" then some (pyStrip s) else none
        | none => none) = o := by
    intro o ho
    cases o with
    | none => rfl
    | some s =>
        unfold wfOptStr at ho
        rw [Bool.and_eq_true, beq_iff_eq, bne_iff_ne] at ho
        obtain ⟨hfix, hne⟩ := ho
        have : pyStrip s ≠ "" := by rw [hfix]; exact hne
        show (if s ≠ "" ∧ pyStrip s ≠ "" then some (pyStrip s) else none) = some s
        rw [if_pos (And.intro hne this), hfix]
  unfold load_model_defaults do_load
  refine LoadPayload.mk.injEq .. ▸ ⟨rfl, ?_, ?_, ?_⟩
  · cases hco : (get_model_options doc m).ctx_size with
    | none => rfl
    | some cv =>
        unfold wfCtx at hc
        rw [hco] at hc
        rw [bne_iff_ne] at hc
        simp [hc]
  · exact hstr ha
  · cases ub with
    | none => exact hstr hb
    | some u =>
        by_cases hu : pyStrip u = ""
        · have : ¬(u ≠ "" ∧ pyStrip u ≠ "") := by
            intro hcon
            exact hcon.2 hu
          simp only [if_neg this]
          unfold specMergedBackend
          simp only [hu, ne_eq, not_true_eq_false, if_false]
          exact hstr hb
        · have hcond : u ≠ "" ∧ pyStrip u ≠ "" := ⟨ne_empty_of_pyStrip_ne hu, hu⟩
          simp only [if_pos hcond]
          unfold specMergedBackend
          simp only [ne_eq, hu, not_false_eq_true, if_true]

/-- The stored options of the claim's concrete example. -/
def exampleStoredDoc : RecipeDoc :=
  fun n =>
    if n = "llama" then some ⟨some 4096, some "-np 4", some "vulkan", []⟩
    else none

/-- Witness for C1 at the claim's concrete stored options
`(4096, "-np 4", "vulkan")`: user backend `"cpu"` yields the effective triple
`(4096, "-np 4", "cpu")`; user backend empty or absent yields
`(4096, "-np 4", "vulkan")`. -/
theorem C1_load_defaults_merge_witness :
    load_model_defaults exampleStoredDoc "llama" (some "cpu") =
      ⟨"llama", some 4096, some "-np 4", some "cpu"⟩ ∧
    load_model_defaults exampleStoredDoc "llama" (some "") =
      ⟨"llama", some 4096, some "-np 4", some "vulkan"⟩ ∧
    load_model_defaults exampleStoredDoc "llama" none =
      ⟨"llama", some 4096, some "-np 4", some "vulkan"⟩ :=
  ⟨(C1_load_defaults_merge exampleStoredDoc "llama" (some "cpu")
      (by decide)).trans (by decide),
   (C1_load_defaults_merge exampleStoredDoc "llama" (some "")
      (by decide)).trans (by decide),
   (C1_load_defaults_merge exampleStoredDoc "llama" none
      (by decide)).trans (by decide)⟩

/-- Embedding of `set_disabled` (source lines 142-151), acting on the
persisted list: read the stored list as a set, `add` or `discard` the model
name, and write back the sorted list. -/
def set_disabled (cur : List String) (model_name : String) (disabled : Bool) :
    List String :=
  let current_disabled : Finset String := cur.toFinset
  let current_disabled :=
    if disabled then insert model_name current_disabled
    else current_disabled.erase model_name
  current_disabled.sort (· ≤ ·)

/-- C6: disabling a model twice persists exactly the same document as
disabling it once, and enabling a model that is not in the stored disabled
set leaves the persisted set unchanged. -/
theorem C6_set_disabled_idempotent (cur : List String) (model_name : String) :
    set_disabled (set_disabled cur model_name true) model_name true =
      set_disabled cur model_name true ∧
    (model_name ∉ cur.toFinset →
      (set_disabled cur model_name false).toFinset = cur.toFinset) := by
  constructor
  · unfold set_disabled
    simp only [if_true]
    rw [Finset.sort_toFinset, Finset.insert_idem]
  · intro hm
    unfold set_disabled
    simp only [Bool.false_eq_true, if_false]
    rw [Finset.sort_toFinset, Finset.erase_eq_of_not_mem hm]

/-- Witness for C6: enabling a never-disabled model on a concrete stored
list does not change the persisted set. -/
theorem C6_set_disabled_idempotent_witness :
    (set_disabled ["model-a", "model-b"] "model-c" false).toFinset =
      (["model-a", "model-b"] : List String).toFinset :=
  (C6_set_disabled_idempotent ["model-a", "model-b"] "model-c").2 (by decide)

/-- State of a backing file on disk: absent, or present with raw text. -/
inductive FileState where
  | missing
  | content (raw : String)

/-- Embedding of `load_recipe_options` (source lines 61-71).  The call to
`json.loads` is abstracted by the parameter `parse`; `parse raw = none`
models a raise (malformed JSON), which the source catches, returning the
empty document, as it does when the file does not exist. -/
def load_recipe_options (parse : String → Option RecipeDoc) :
    FileState → RecipeDoc
  | .missing => fun _ => none
  | .content raw =>
      match parse raw with
      | some d => d
      | none => fun _ => none

/-- The parsed shape of `manager_prefs.json`: an object with an optional
`disabled` key holding a list of model names. -/
structure PrefsDoc where
  disabled : Option (List String)

/-- Embedding of `get_disabled_models` (source lines 132-140).  `parse`
abstracts the `json.loads` plus `data.get("disabled", [])` access inside the
`try` block; `none` models any raise there, which the source catches,
returning the empty set, as it does when the file does not exist. -/
def get_disabled_models (parse : String → Option PrefsDoc) :
    FileState → Finset String
  | .missing => ∅
  | .content raw =>
      match parse raw with
      | some d => (d.disabled.getD []).toFinset
      | none => ∅

/-- C5: both persisted-document readers are total and, on a missing backing
file or one whose text the JSON parser rejects, behave as if the document
were empty: `get_model_options` yields the empty record for every model and
the disabled-set read yields the empty set. -/
theorem C5_reads_never_fail (rparse : String → Option RecipeDoc)
    (pparse : String → Option PrefsDoc) (rfs pfs : FileState) (m : String)
    (hr : rfs = FileState.missing ∨
      ∃ s, rfs = FileState.content s ∧ rparse s = none)
    (hp : pfs = FileState.missing ∨
      ∃ s, pfs = FileState.content s ∧ pparse s = none) :
    get_model_options (load_recipe_options rparse rfs) m = emptyEntry ∧
    get_disabled_models pparse pfs = ∅ := by
  constructor
  · rcases hr with h | ⟨s, hfs, hps⟩
    · subst h
      rfl
    · subst hfs
      simp [get_model_options, load_recipe_options, hps, emptyEntry]
  · rcases hp with h | ⟨s, hfs, hps⟩
    · subst h
      rfl
    · subst hfs
      simp [get_disabled_models, hps]

/-- Witness for C5: a parser that rejects the concrete file text behaves as
an empty document for both readers. -/
theorem C5_reads_never_fail_witness :
    get_model_options
      (load_recipe_options (fun _ => none) (FileState.content "not json"))
      "llama" = emptyEntry ∧
    get_disabled_models (fun _ => none) (FileState.content "also not json")
      = ∅ :=
  C5_reads_never_fail (fun _ => none) (fun _ => none)
    (FileState.content "not json") (FileState.content "also not json") "llama"
    (Or.inr ⟨"not json", rfl, rfl⟩) (Or.inr ⟨"also not json", rfl, rfl⟩)

/-- Outcome of one upstream HTTP call: a transport-level raise (connection
error, DNS failure, timeout, ...) or a response with a status code and a
body; `body = none` models a `r.json()` that raises. -/
inductive HttpOutcome (α : Type) where
  | netErr (msg : String)
  | resp (status : Nat) (body : Option α)

/-- Embedding of `get_stats` (source lines 178-187): every exception inside
the `try` block is swallowed and only a parsable 200 response returns a
value. -/
def get_stats {α : Type} : HttpOutcome α → Option α
  | .netErr _ => none
  | .resp status body => if status = 200 then body else none

/-- Embedding of the error behaviour of `get_models` / `get_health`
(source lines 164-176): a transport raise or `raise_for_status` (status of
400 or above) or an unparsable body propagates as an exception, modelled by
`Except.error`. -/
def fetch_json {α : Type} : HttpOutcome α → Except String α
  | .netErr msg => .error msg
  | .resp status body =>
      if 400 ≤ status then .error "HTTPStatusError"
      else
        match body with
        | some j => .ok j
        | none => .error "JSONDecodeError"

/-- The observable shape of the page produced by the `index` handler: either
the connection-error page (when `get_models`/`get_health` raise) or the

normal page, with or without the stats section. -/
inductive IndexPage where
  | connectionError (msg : String)
  | page (hasStatsSection : Bool)

/-- Embedding of the data-gathering and stats-section logic of `index`
(source lines 230-247 and 384-392): an exception from the models or health
fetch yields the connection-error page; otherwise the page is rendered, and
the stats section is included only when `stats` is truthy. -/
def index {α β γ : Type} (models : HttpOutcome β) (health : HttpOutcome γ)
    (stats : HttpOutcome α) (truthy : α → Bool) : IndexPage :=
  match fetch_json models with
  | .error e => .connectionError e
  | .ok _ =>
      match fetch_json health with
      | .error e => .connectionError e
      | .ok _ =>
          .page
            (match get_stats stats with
              | some j => truthy j
              | none => false)

/-- A failed stats call: transport raise (covers timeouts) or any non-200
response. -/
def statsFailed {α : Type} : HttpOutcome α → Bool
  | .netErr _ => true
  | .resp status _ => status != 200

/-- Whether the rendered page shows a stats section. -/
def showsStats : IndexPage → Bool
  | .connectionError _ => false
  | .page hasStatsSection => hasStatsSection

/-- C4: a failed stats call (network error, timeout, or non-200 response)
yields `none` instead of an exception — `get_stats` is a total function —
and the page render path still succeeds: whenever models and health fetches
succeed the handler produces the normal page, and it never shows a stats
section. -/
theorem C4_stats_never_propagates {α β γ : Type} (stats : HttpOutcome α)
    (truthy : α → Bool) (h : statsFailed stats = true) :
    get_stats stats = none ∧
    (∀ (models : HttpOutcome β) (health : HttpOutcome γ),
      showsStats (index models health stats truthy) = false) ∧
    (∀ (models : HttpOutcome β) (health : HttpOutcome γ) (jm : β) (jh : γ),
      fetch_json models = .ok jm → fetch_json health = .ok jh →
      index models health stats truthy = .page false) := by
  have hnone : get_stats stats = none := by
    cases stats with
    | netErr msg => rfl
    | resp status body =>
        unfold statsFailed at h
        rw [bne_iff_ne] at h
        simp only [get_stats]
        rw [if_neg h]
  refine ⟨hnone, ?_, ?_⟩
  · intro models health
    unfold index
    cases fetch_json models with
    | error e => rfl
    | ok jm =>
        cases fetch_json health with
        | error e => rfl
        | ok jh => simp [showsStats, hnone]
  · intro models health jm jh hm hh
    unfold index
    rw [hm, hh, hnone]

/-- Witness for C4 at concrete inputs: a 500 stats response yields no stats,
and the page still renders without a stats section. -/
theorem C4_stats_never_propagates_witness :
    get_stats (HttpOutcome.resp 500 (some "irrelevant")) = (none : Option String) ∧
    index (HttpOutcome.resp 200 (some "models")) (HttpOutcome.resp 200 (some "health"))
      (HttpOutcome.resp 500 (some "irrelevant")) (fun _ => true) = IndexPage.page false :=
  ⟨(C4_stats_never_propagates (β := String) (γ := String)
      (HttpOutcome.resp 500 (some "irrelevant"))
      (fun _ => true) (by decide)).1,
   (C4_stats_never_propagates (β := String) (γ := String)
      (HttpOutcome.resp 500 (some "irrelevant")) (fun _ => true) (by decide)).2.2
      (HttpOutcome.resp 200 (some "models")) (HttpOutcome.resp 200 (some "health"))
      "models" "health" rfl rfl⟩

/-- Embedding of `get_headers` (source lines 157-162): the Authorization
header is attached exactly when a key is configured (non-empty string). -/
def get_headers (key : String) : List (String × String) :=
  if key ≠ "" then [("Authorization", "Bearer " ++ key)] else []

/-- An upstream HTTP request as built by the manager: method, URL, headers. -/
structure UpstreamReq where
  method : String
  url : String
  headers : List (String × String)
deriving DecidableEq

/-- Request of `get_models` (source line 167). -/
def models_request (base key : String) : UpstreamReq :=
  ⟨"GET", base ++ "/api/v1/models", get_headers key⟩

/-- Request of `get_health` (source line 174). -/
def health_request (base key : String) : UpstreamReq :=
  ⟨"GET", base ++ "/api/v1/health", get_headers key⟩

/-- Request of `get_stats` (source line 182). -/
def stats_request (base key : String) : UpstreamReq :=
  ⟨"GET", base ++ "/api/v1/stats", get_headers key⟩

/-- Request of `do_load` (source line 206). -/
def load_request (base key : String) : UpstreamReq :=
  ⟨"POST", base ++ "/api/v1/load", get_headers key⟩

/-- Request of `do_unload_model` (source line 213). -/
def unload_request (base key : String) : UpstreamReq :=
  ⟨"POST", base ++ "/api/v1/unload", get_headers key⟩

/-- Request of `unload_all_models_action` (source line 793). -/
def unload_all_request (base key : String) : UpstreamReq :=
  ⟨"POST", base ++ "/api/v1/unload", get_headers key⟩

/-- Request of `do_delete_model` (source line 223). -/
def delete_request (base key : String) : UpstreamReq :=
  ⟨"POST", base ++ "/api/v1/delete", get_headers key⟩

/-- Request of `pull_model_stream` (source lines 840-845). -/
def pull_request (base key : String) : UpstreamReq :=
  ⟨"POST", base ++ "/api/v1/pull", get_headers key⟩

/-- All upstream requests the manager issues. -/
def all_upstream_requests (base key : String) : List UpstreamReq :=
  [models_request base key, health_request base key, stats_request base key,
   load_request base key, unload_request base key, unload_all_request base key,
   delete_request base key, pull_request base key]

/-- C8: every upstream operation (list models, health, stats, load, unload,
unload-all, delete, pull) carries `Authorization: Bearer <key>` when a key is
configured, and no Authorization header at all when none is configured. -/
theorem C8_bearer_header (base key : String) :
    (key ≠ "" → ∀ r ∈ all_upstream_requests base key,
      ("Authorization", "Bearer " ++ key) ∈ r.headers) ∧
    (key = "" → ∀ r ∈ all_upstream_requests base key,
      ∀ v, ("Authorization", v) ∉ r.headers) := by
  have hh : ∀ r ∈ all_upstream_requests base key, r.headers = get_headers key := by
    intro r hr
    simp only [all_upstream_requests, List.mem_cons, List.not_mem_nil,
      or_false] at hr
    rcases hr with h | h | h | h | h | h | h | h <;> subst h <;> rfl
  constructor
  · intro hk r hr
    rw [hh r hr]
    unfold get_headers
    rw [if_pos hk]
    exact List.mem_singleton.mpr rfl
  · intro hk r hr v
    rw [hh r hr]
    unfold get_headers
    rw [if_neg (fun hc => hc hk)]
    exact List.not_mem_nil _

/-- Witness for C8 at concrete inputs: with a configured key the models
request carries the bearer header; with no key the pull request carries no
Authorization header. -/
theorem C8_bearer_header_witness :
    ("Authorization", "Bearer secret-key") ∈
      (models_request "http://localhost:8000" "secret-key").headers ∧
    ∀ v, ("Authorization", v) ∉
      (pull_request "http://localhost:8000" "").headers :=
  ⟨(C8_bearer_header "http://localhost:8000" "secret-key").1 (by decide)
      (models_request "http://localhost:8000" "secret-key")
      (by simp [all_upstream_requests]),
   (C8_bearer_header "http://localhost:8000" "").2 rfl
      (pull_request "http://localhost:8000" "")
      (by simp [all_upstream_requests])⟩

/-- The lowercase hex digit character of `n % 16`. -/
def hexDigitChar (n : Nat) : Char :=
  Nat.digitChar (n % 16)

lemma hexDigitChar_ne_newline (n : Nat) : hexDigitChar n ≠ '\n' := by
  have h : n % 16 < 16 := Nat.mod_lt _ (by decide)
  have hfin : ∀ k : Fin 16, Nat.digitChar k.val ≠ '\n' := by decide
  exact hfin ⟨n % 16, h⟩

/-- The JSON escape `\uXXXX` of a code unit (four hex digits). -/
def unicodeEscape (n : Nat) : List Char :=
  ['\\', 'u', hexDigitChar (n / 4096), hexDigitChar (n / 256),
   hexDigitChar (n / 16), hexDigitChar n]

/-- Per-character escaping performed by `json.dumps` on string values with
its default `ensure_ascii=True`: short escapes for quote, backslash and the
common control characters, `\uXXXX` for other control and non-ASCII
characters (a surrogate pair beyond the basic plane), everything else
verbatim. -/
def escChar (c : Char) : List Char :=
  if c = '"' then ['\\', '"']
  else if c = '\\' then ['\\', '\\']
  else if c = '\n' then ['\\', 'n']
  else if c = '\r' then ['\\', 'r']
  else if c = '\t' then ['\\', 't']
  else if c = '\x08' then ['\\', 'b']
  else if c = '\x0c' then ['\\', 'f']
  else if c.toNat < 32 then unicodeEscape c.toNat
  else if c.toNat < 127 then [c]
  else if c.toNat < 65536 then unicodeEscape c.toNat
  else unicodeEscape (55296 + (c.toNat - 65536) / 1024) ++
    unicodeEscape (56320 + (c.toNat - 65536) % 1024)

/-- The escaped body of a JSON string literal, as `json.dumps` produces. -/
def jsonEscape (s : String) : String :=
  String.mk (s.data.map escChar).flatten

/-- Embedding of `json.dumps` applied to the one-key dict
`\x7b"error": msg\x7d` (the default separators put a space after the
colon). -/
def json_dumps_error (msg : String) : String :=
  "\x7b\"error\": \"" ++ jsonEscape msg ++ "\"\x7d"

/-- A server-sent-event chunk with one data line, as built by the source at
lines 854 and 857: `f"data: ...\n\n"`. -/
def sse_chunk (payload : String) : String :=
  "data: " ++ payload ++ "\n\n"

lemma unicodeEscape_no_newline (n : Nat) : ∀ x ∈ unicodeEscape n, x ≠ '\n' := by
  intro x hx
  unfold unicodeEscape at hx
  simp only [List.mem_cons, List.not_mem_nil, or_false] at hx
  rcases hx with h | h | h | h | h | h <;> subst h
  · decide
  · decide
  · exact hexDigitChar_ne_newline _
  · exact hexDigitChar_ne_newline _
  · exact hexDigitChar_ne_newline _
  · exact hexDigitChar_ne_newline _

set_option maxHeartbeats 1000000 in
lemma escChar_no_newline (c : Char) : ∀ x ∈ escChar c, x ≠ '\n' := by
  intro x hx
  unfold escChar at hx
  split_ifs at hx
  · simp only [List.mem_cons, List.not_mem_nil, or_false] at hx
    rcases hx with h | h <;> subst h <;> decide
  · simp only [List.mem_cons, List.not_mem_nil, or_false] at hx
    rcases hx with h | h <;> subst h <;> decide
  · simp only [List.mem_cons, List.not_mem_nil, or_false] at hx
    rcases hx with h | h <;> subst h <;> decide
  · simp only [List.mem_cons, List.not_mem_nil, or_false] at hx
    rcases hx with h | h <;> subst h <;> decide
  · simp only [List.mem_cons, List.not_mem_nil, or_false] at hx
    rcases hx with h | h <;> subst h <;> decide
  · simp only [List.mem_cons, List.not_mem_nil, or_false] at hx
    rcases hx with h | h <;> subst h <;> decide
  · simp only [List.mem_cons, List.not_mem_nil, or_false] at hx
    rcases hx with h | h <;> subst h <;> decide
  · exact unicodeEscape_no_newline _ x hx
  · simp only [List.mem_cons, List.not_mem_nil, or_false] at hx
    subst hx
    assumption
  · exact unicodeEscape_no_newline _ x hx
  · rw [List.mem_append] at hx
    rcases hx with h | h
    · exact unicodeEscape_no_newline _ x h
    · exact unicodeEscape_no_newline _ x h

lemma jsonEscape_no_newline (s : String) :
    ∀ x ∈ (jsonEscape s).data, x ≠ '\n' := by
  intro x hx
  have hx' : x ∈ (s.data.map escChar).flatten := hx
  rw [List.mem_flatten] at hx'
  obtain ⟨sub, hsub, hxsub⟩ := hx'
  rw [List.mem_map] at hsub
  obtain ⟨c, _, hc⟩ := hsub
  rw [← hc] at hxsub
  exact escChar_no_newline c x hxsub

lemma json_dumps_error_no_newline (msg : String) :
    ∀ x ∈ (json_dumps_error msg).data, x ≠ '\n' := by
  intro x hx
  unfold json_dumps_error at hx
  rw [String.data_append, String.data_append, List.mem_append,
    List.mem_append] at hx
  have h1 : ∀ y ∈ ("\x7b\"error\": \"" : String).data, y ≠ '\n' := by decide
  have h2 : ∀ y ∈ ("\"\x7d" : String).data, y ≠ '\n' := by decide
  rcases hx with (hx | hx) | hx
  · exact h1 x hx
  · exact jsonEscape_no_newline msg x hx
  · exact h2 x hx

/-- Outcome of the upstream pull call as seen by the relay generator: the
`client.send` itself raises (connection refused, timeout, ...), or a
response arrives with a status code, an error text and a body byte
stream. -/
inductive PullUpstream where
  | connFail (msg : String)
  | conn (status : Nat) (text : String) (chunks : List String)

/-- Embedding of `event_generator` inside `pull_model_stream`
(source lines 837-857): a response whose status makes `raise_for_status`
raise (400 and above) is turned into a single `data:` event carrying
`json.dumps(\x7b"error": "Upstream Error: ..."\x7d)`; any other exception is
turned into a single `data:` event carrying `json.dumps(\x7b"error":
str(e)\x7d)`; otherwise the upstream chunks are relayed as they come.  The
generator is a total function: no exception escapes it. -/
def event_generator : PullUpstream → List String
  | .connFail msg => [sse_chunk (json_dumps_error msg)]
  | .conn status text chunks =>
      if 400 ≤ status then
        [sse_chunk (json_dumps_error ("Upstream Error: " ++ text))]
      else chunks

/-- The upstream call failed before producing any bytes: transport failure,
or an immediate non-2xx (4xx/5xx) response. -/
def failsBeforeBytes : PullUpstream → Bool
  | .connFail _ => true
  | .conn status _ _ => decide (400 ≤ status)

/-- C3: whenever the upstream pull call fails before any bytes are produced,
the relay generator still yields at least one chunk, and every chunk it
yields is a well-formed server-sent event: a single newline-free `data:`
line that carries the `json.dumps` serialization of an object with an
`error` key.  Being a total function, the generator raises nothing. -/
theorem C3_pull_relay_error_event (u : PullUpstream)
    (h : failsBeforeBytes u = true) :
    event_generator u ≠ [] ∧
    ∀ chunk ∈ event_generator u, ∃ msg,
      chunk = sse_chunk (json_dumps_error msg) ∧
      ∀ x ∈ (json_dumps_error msg).data, x ≠ '\n' := by
  cases u with
  | connFail msg =>
      refine ⟨by simp [event_generator], ?_⟩
      intro chunk hc
      simp only [event_generator, List.mem_singleton] at hc
      subst hc
      exact ⟨msg, rfl, json_dumps_error_no_newline msg⟩
  | conn status text chunks =>
      unfold failsBeforeBytes at h
      have h' : 400 ≤ status := of_decide_eq_true h
      constructor
      · simp [event_generator, if_pos h']
      · intro chunk hc
        simp only [event_generator, if_pos h', List.mem_singleton] at hc
        subst hc
        exact ⟨"Upstream Error: " ++ text, rfl, json_dumps_error_no_newline _⟩

/-- Witness for C3 at a concrete input: an immediate 404 still makes the
relay yield an event. -/
theorem C3_pull_relay_error_event_witness :
    event_generator (PullUpstream.conn 404 "Not Found" []) ≠ [] :=
  (C3_pull_relay_error_event (PullUpstream.conn 404 "Not Found" [])
    (by decide)).1
